import Mathlib

/-!
Verification of the tempjwk provisioner-lifecycle script (src/tempjwk.py).

The script is embedded shallowly: every external effect (the step-cli CA
tool, gpg, the filesystem, standard input) is modelled by an environment
record `Env` that fixes the outcome of each call, and `main` is translated
from the source line by line into a pure function `Env → RunResult` that
records the observable behaviour of one run: the sequence of external
calls, the terminal transcript, the exit status, whether the run died on
an uncaught exception, whether a plaintext temp file survived, and the
final state of the CA provisioner namespace.

The polling wait loop (source lines 142-147) is embedded separately over
rational time: checks happen at times eps + k/2 where eps models the tiny
positive delay between `start_time = time.time()` and the first loop test.
-/

namespace Tempjwk

/-! ## Path resolution (pathlib semantics of `script_dir / arg`) -/

def isAbsolute (p : String) : Bool :=
  match p.data with
  | [] => false
  | c :: _ => c = '/'

def resolvePath (base rel : String) : String :=
  if isAbsolute rel then rel else base ++ "/" ++ rel

/-! ## Substring test (Python `needle in haystack`) -/

def substrB (needle hay : String) : Bool := decide (needle.data <:+: hay.data)

/-- Rendering of the CA state as the listing command's stdout: one
provisioner name per line (the black-box contract of `step-cli ca
provisioner list`). -/
def listingOutput : List String → String
  | [] => ""
  | [x] => x
  | x :: xs => x ++ ("\n" ++ listingOutput xs)

/-! ## The cancellable wait loop (source lines 142-147)

The loop checks, at times eps, eps + 1/2, eps + 1, ..., first whether the
elapsed time strictly exceeds the timeout, then (via `select` with a
0.5-second window) whether standard input is readable.  `arr = some t`
means input becomes readable at time `t`; any content counts, only
readiness is tested.  The loop never reads the input. -/

inductive WaitOutcome
  | cancelled
  | timedOut
deriving DecidableEq, Repr

/-- Delay between `start_time = time.time()` and the first loop check:
some positive rational, at most one polling interval. -/
def eps (d : ℕ) : ℚ := 1 / (d + 2)

/-- Time of the loop's k-th timeout check. -/
def chk (d k : ℕ) : ℚ := eps d + k / 2

/-- One run of the polling loop, fuelled.  Returns the outcome, the time
at which the loop exits, and the number of `select` polls performed. -/
def waitFrom (T : ℚ) (d : ℕ) (arr : Option ℚ) : ℕ → ℕ → Option (WaitOutcome × ℚ × ℕ)
  | 0, _ => none
  | fuel + 1, k =>
    if T < chk d k then some (WaitOutcome.timedOut, chk d k, k)
    else
      match arr with
      | some t =>
        if t ≤ chk d k + 1/2 then some (WaitOutcome.cancelled, max (chk d k) t, k + 1)
        else waitFrom T d arr fuel (k + 1)
      | none => waitFrom T d arr fuel (k + 1)

/-- Fuel sufficient for the loop to reach its exit. -/
def waitFuel (T : ℚ) : ℕ := (⌈2 * T⌉).toNat + 1

def waitRun (T : ℚ) (d : ℕ) (arr : Option ℚ) : WaitOutcome × ℚ × ℕ :=
  (waitFrom T d arr (waitFuel T) 0).getD (WaitOutcome.timedOut, eps d, 0)

/-- Input carrying content: the loop only tests readiness, so the content
is discarded before the loop ever sees it. -/
def waitRunInput (T : ℚ) (d : ℕ) (inp : Option (ℚ × String)) : WaitOutcome × ℚ × ℕ :=
  waitRun T d (Option.map Prod.fst inp)

/-! ### Basic facts about the check times -/

lemma eps_pos (d : ℕ) : 0 < eps d := by
  unfold eps
  positivity

lemma eps_le_half (d : ℕ) : eps d ≤ 1/2 := by
  unfold eps
  rw [div_le_div_iff₀ (by positivity) (by norm_num)]
  linarith

lemma chk_zero (d : ℕ) : chk d 0 = eps d := by
  unfold chk
  norm_num

lemma chk_succ (d k : ℕ) : chk d (k + 1) = chk d k + 1/2 := by
  unfold chk
  push_cast
  ring

lemma chk_ge (d k : ℕ) : (k : ℚ) / 2 < chk d k := by
  unfold chk
  have := eps_pos d
  linarith

/-! ### Loop exit analysis -/

/-- The loop exits at check k: either the timeout test fires there, or the
select window starting at that check sees input. -/
def hitsB (T : ℚ) (d : ℕ) (arr : Option ℚ) (k : ℕ) : Bool :=
  decide (T < chk d k) ||
    (match arr with
     | some t => decide (t ≤ chk d k + 1/2)
     | none => false)

lemma waitFrom_step {T : ℚ} {d : ℕ} {arr : Option ℚ} {k : ℕ}
    (h : hitsB T d arr k = false) (fuel : ℕ) :
    waitFrom T d arr (fuel + 1) k = waitFrom T d arr fuel (k + 1) := by
  cases arr with
  | none =>
    simp only [hitsB, Bool.or_eq_false_iff, decide_eq_false_iff_not] at h
    simp only [waitFrom, if_neg h.1]
  | some t =>
    simp only [hitsB, Bool.or_eq_false_iff, decide_eq_false_iff_not] at h
    simp only [waitFrom, if_neg h.1, if_neg h.2]

lemma waitFrom_skip {T : ℚ} {d : ℕ} {arr : Option ℚ} :
    ∀ (m fuel k : ℕ), (∀ j, j < m → hitsB T d arr (k + j) = false) →
      waitFrom T d arr (fuel + m) k = waitFrom T d arr fuel (k + m)
  | 0, _, _, _ => rfl
  | m + 1, fuel, k, h => by
    have h0 : hitsB T d arr k = false := by simpa using h 0 (Nat.succ_pos m)
    have hrest : ∀ j, j < m → hitsB T d arr ((k + 1) + j) = false := by
      intro j hj
      have := h (j + 1) (by omega)
      rwa [show k + (j + 1) = (k + 1) + j from by omega] at this
    calc waitFrom T d arr (fuel + (m + 1)) k
        = waitFrom T d arr ((fuel + m) + 1) k := rfl
      _ = waitFrom T d arr (fuel + m) (k + 1) := waitFrom_step h0 _
      _ = waitFrom T d arr fuel ((k + 1) + m) := waitFrom_skip m fuel (k + 1) hrest
      _ = waitFrom T d arr fuel (k + (m + 1)) := by
            rw [show (k + 1) + m = k + (m + 1) from by omega]

lemma waitFrom_timeout {T : ℚ} {d k : ℕ} (h : T < chk d k) (arr : Option ℚ) (fuel : ℕ) :
    waitFrom T d arr (fuel + 1) k = some (WaitOutcome.timedOut, chk d k, k) := by
  simp only [waitFrom, if_pos h]

lemma waitFrom_cancel {T t : ℚ} {d k : ℕ} (h1 : ¬ T < chk d k)
    (h2 : t ≤ chk d k + 1/2) (fuel : ℕ) :
    waitFrom T d (some t) (fuel + 1) k
      = some (WaitOutcome.cancelled, max (chk d k) t, k + 1) := by
  simp only [waitFrom, if_neg h1, if_pos h2]

lemma le_toNatCeil (x : ℚ) : x ≤ ((⌈x⌉.toNat : ℕ) : ℚ) := by
  have h1 : x ≤ (⌈x⌉ : ℚ) := Int.le_ceil x
  have h2 : (⌈x⌉ : ℚ) ≤ ((⌈x⌉.toNat : ℕ) : ℚ) := by
    exact_mod_cast Int.self_le_toNat ⌈x⌉
  linarith

lemma timeout_hit (T : ℚ) (d : ℕ) : T < chk d ((⌈2 * T⌉).toNat) := by
  have h := le_toNatCeil (2 * T)
  have h2 := chk_ge d ((⌈2 * T⌉).toNat)
  linarith

lemma hitsB_exists (T : ℚ) (d : ℕ) (arr : Option ℚ) : ∃ k, hitsB T d arr k = true :=
  ⟨(⌈2 * T⌉).toNat, by cases arr <;> simp [hitsB, timeout_hit T d]⟩

/-- With no input, the loop runs to the first check past the timeout and
exits there with the timed-out outcome. -/
lemma waitRun_none (T : ℚ) (d : ℕ) :
    ∃ n, (∀ j, j < n → ¬ T < chk d j) ∧ T < chk d n ∧
      waitFrom T d none (waitFuel T) 0 = some (WaitOutcome.timedOut, chk d n, n) := by
  classical
  have hex : ∃ k, hitsB T d none k = true := hitsB_exists T d none
  obtain ⟨n, hn⟩ : ∃ n, Nat.find hex = n := ⟨_, rfl⟩
  have hspec : hitsB T d none n = true := hn ▸ Nat.find_spec hex
  have hmin : ∀ j, j < n → hitsB T d none j = false := by
    intro j hj
    have := @Nat.find_min _ _ hex j (by omega)
    simpa using this
  have hle : n ≤ (⌈2 * T⌉).toNat :=
    hn ▸ Nat.find_min' hex (by simp [hitsB, timeout_hit T d])
  have hTn : T < chk d n := by simpa [hitsB] using hspec
  refine ⟨n, ?_, hTn, ?_⟩
  · intro j hj
    have := hmin j hj
    simp only [hitsB, Bool.or_eq_false_iff, decide_eq_false_iff_not] at this
    exact this.1
  · obtain ⟨f, hf⟩ : ∃ f, waitFuel T = (f + 1) + n := by
      refine ⟨(⌈2 * T⌉).toNat - n, ?_⟩
      unfold waitFuel
      omega
    have hskip := waitFrom_skip n (f + 1) 0
      (fun j hj => by simpa using hmin j (by omega))
    rw [hf, hskip]
    simpa using waitFrom_timeout hTn none f

/-- With input becoming readable at time t, and a timeout that the loop
has not yet passed, the loop exits cancelled at the first select window
covering t. -/
lemma waitRun_some (T t : ℚ) (d : ℕ) (ht0 : 0 ≤ t) (htT : t < T) (he : eps d ≤ T) :
    ∃ n, ¬ T < chk d n ∧ t ≤ chk d n + 1/2 ∧ chk d n ≤ t + 1/2 ∧
      waitFrom T d (some t) (waitFuel T) 0
        = some (WaitOutcome.cancelled, max (chk d n) t, n + 1) := by
  classical
  have hex : ∃ k, hitsB T d (some t) k = true := hitsB_exists T d (some t)
  obtain ⟨n, hn⟩ : ∃ n, Nat.find hex = n := ⟨_, rfl⟩
  have hspec : hitsB T d (some t) n = true := hn ▸ Nat.find_spec hex
  have hmin : ∀ j, j < n → hitsB T d (some t) j = false := by
    intro j hj
    have := @Nat.find_min _ _ hex j (by omega)
    simpa using this
  have hle : n ≤ (⌈2 * T⌉).toNat :=
    hn ▸ Nat.find_min' hex (by simp [hitsB, timeout_hit T d])
  have hnT : ¬ T < chk d n := by
    rcases Nat.eq_zero_or_pos n with h0 | hpos
    · rw [h0, chk_zero]
      exact not_lt.mpr he
    · obtain ⟨m, hm⟩ : ∃ m, n = m + 1 := ⟨n - 1, by omega⟩
      have hprev := hmin m (by omega)
      simp only [hitsB, Bool.or_eq_false_iff, decide_eq_false_iff_not] at hprev
      have h3 : chk d m + 1/2 < t := not_le.mp hprev.2
      rw [hm, chk_succ]
      exact not_lt.mpr (by linarith)
  have hcnd : t ≤ chk d n + 1/2 := by
    simp only [hitsB, Bool.or_eq_true, decide_eq_true_eq] at hspec
    rcases hspec with h | h
    · exact absurd h hnT
    · exact h
  have hup : chk d n ≤ t + 1/2 := by
    rcases Nat.eq_zero_or_pos n with h0 | hpos
    · rw [h0, chk_zero]
      have := eps_le_half d
      linarith
    · obtain ⟨m, hm⟩ : ∃ m, n = m + 1 := ⟨n - 1, by omega⟩
      have hprev := hmin m (by omega)
      simp only [hitsB, Bool.or_eq_false_iff, decide_eq_false_iff_not] at hprev
      have h3 : chk d m + 1/2 < t := not_le.mp hprev.2
      rw [hm, chk_succ]
      linarith
  obtain ⟨f, hf⟩ : ∃ f, waitFuel T = (f + 1) + n := by
    refine ⟨(⌈2 * T⌉).toNat - n, ?_⟩
    unfold waitFuel
    omega
  have hskip := waitFrom_skip n (f + 1) 0
    (fun j hj => by simpa using hmin j (by omega))
  refine ⟨n, hnT, hcnd, hup, ?_⟩
  rw [hf, hskip]
  simpa using waitFrom_cancel hnT hcnd f

/-- With a non-positive timeout the very first check exits the loop:
no select poll ever happens, whatever input may be buffered. -/
lemma waitRun_nonpos (T : ℚ) (hT : T ≤ 0) (d : ℕ) (arr : Option ℚ) :
    waitRun T d arr = (WaitOutcome.timedOut, eps d, 0) := by
  have h0 : T < chk d 0 := by
    rw [chk_zero]
    exact lt_of_le_of_lt hT (eps_pos d)
  unfold waitRun waitFuel
  rw [waitFrom_timeout h0, chk_zero]
  rfl

/-! ## The orchestration (source main, lines 76-159)

Exceptions matter here: `delete_provisioner` and `add_provisioner` raise
ValueError, while the try/except blocks in main watch for
subprocess.CalledProcessError, so those ValueErrors escape and terminate
the interpreter (exit status 1, traceback on the terminal).  Only the
query step raises CalledProcessError and is actually caught. -/

inductive Exc
  | cpe (msg : String)
  | valueError (msg : String)
deriving DecidableEq, Repr

def Exc.message : Exc → String
  | .cpe m => m
  | .valueError m => m

inductive Event
  | checkPub (path : String)
  | listCall
  | deleteCall (name : String)
  | gpgCall (path : String)
  | addCall (name pubArg privArg : String)
  | waitEv (o : WaitOutcome)
deriving DecidableEq, Repr

/-- External commands: the CA tool and gpg.  The existence test and the
wait are local to the process. -/
def Event.isExternal : Event → Bool
  | .checkPub _ => false
  | .waitEv _ => false
  | _ => true

def listCmd : List String := ["step-cli", "ca", "provisioner", "list"]

def removeCmd (name adminP adminS : String) : List String :=
  ["step-cli", "ca", "provisioner", "remove", name,
   "--admin-provisioner", adminP, "--admin-subject", adminS]

def gpgCmd (path : String) : List String := ["gpg", "--decrypt", path]

/-- The name handed out by tempfile.NamedTemporaryFile. -/
def tempName : String := "/tmp/tmpw3k4jwk"

def addCmd (name adminP adminS pubArg tmp : String) : List String :=
  ["step-cli", "ca", "provisioner", "add", "--type", "jwk",
   "--public-key", pubArg, "--private-key", tmp, name,
   "--admin-provisioner", adminP, "--admin-subject", adminS]

/-- Rendering of str(subprocess.CalledProcessError): the command and the
exit status.  The captured stderr of the subprocess is NOT part of it. -/
def cpeStr (cmd : List String) (code : ℕ) : String :=
  "Command [" ++ (String.intercalate ", " cmd ++
    (" ] returned non-zero exit status " ++ (toString code ++ ".")))

def msgPubMissing : String := "Error: public key file does not exist"

def msgQueryFail (e : String) : String :=
  "Error: Failed to check if provisioner exists: " ++ e

def msgExists (n : String) : String :=
  "Provisioner " ++ (n ++ " already exists. Deleting existing provisioner...")

def msgExistingDeleted (n : String) : String :=
  "Existing provisioner " ++ (n ++ " deleted.")

def msgAdded (n : String) : String := "Provisioner " ++ (n ++ " added.")

def msgPress (t : ℤ) : String :=
  "Press any key to delete it (up to " ++ (toString t ++ " seconds)")

def msgDeleted (n : String) : String := "Provisioner " ++ (n ++ " deleted.")

def msgDeleteFail (e : String) : String :=
  "Error: Failed to delete provisioner: " ++ e

def msgDecryptFail : String := "Failed to decrypt private key"

def msgAddFail (e : String) : String := "Error: Failed to add provisioner: " ++ e

def msgAddCaught (n e : String) : String :=
  "Error: Failed to add provisioner " ++ (n ++ (": " ++ e))

/-- What an uncaught exception leaves on the terminal. -/
def tracebackLine (m : String) : String :=
  "Traceback (most recent call last): ValueError: " ++ m

/-- check_provisioner (source lines 11-22): run the listing command with
check=True and capture_output=True; non-zero exit raises
CalledProcessError, otherwise test the name as a substring of stdout. -/
def check_provisioner (name : String) (listExit : ℕ) (stdout : String) : Except Exc Bool :=
  if listExit ≠ 0 then Except.error (Exc.cpe (cpeStr listCmd listExit))
  else if substrB name stdout then Except.ok true
  else Except.ok false

/-- delete_provisioner (source lines 25-34): run the remove command with
check=True; a CalledProcessError is caught and re-raised as ValueError. -/
def delete_provisioner (name adminP adminS : String) (exitCode : ℕ) : Except Exc Unit :=
  if exitCode = 0 then Except.ok ()
  else Except.error (Exc.valueError
    (msgDeleteFail (cpeStr (removeCmd name adminP adminS) exitCode)))

/-- Observable behaviour of one operation: its result, the external calls
it made, what reached the terminal (uncaptured subprocess stderr), and
whether its temporary plaintext file still exists when it is done. -/
structure CallSummary (α : Type) where
  result : Except Exc α
  events : List Event
  terminal : List String
  fileLeft : Bool
deriving Repr

/-- Python with-statement on tempfile.NamedTemporaryFile: the body runs
with the file name in scope; leaving the block by ANY path (return or
exception) removes the file when the delete flag is set (the default).
The body reports whether the file still exists at block exit (false if
the body unlinked it itself, as decrypt_file does on failure). -/
def withTempFile {α : Type} (delete : Bool) (body : String → CallSummary α) : CallSummary α :=
  let r := body tempName
  { r with fileLeft := if delete then false else r.fileLeft }

/-- add_provisioner (source lines 37-59): decrypt the private key into a
NamedTemporaryFile (deleted on block exit), then run the add command with
the given public-key argument and the temp file; both failures surface as
ValueError.  Note the gpg call decrypts the path argument as passed in,
and the add command receives the public-key argument as passed in. -/
def add_provisioner (name adminP adminS privArg pubArg : String)
    (gpgExit : ℕ) (gpgErr : String) (addExit : ℕ) (addErr : String) : CallSummary Unit :=
  withTempFile true (fun tmp =>
    if gpgExit ≠ 0 then
      { result := Except.error (Exc.valueError msgDecryptFail),
        events := [Event.gpgCall privArg], terminal := [gpgErr], fileLeft := true }
    else if addExit ≠ 0 then
      { result := Except.error (Exc.valueError
          (msgAddFail (cpeStr (addCmd name adminP adminS pubArg tmp) addExit))),
        events := [Event.gpgCall privArg, Event.addCall name pubArg tmp],
        terminal := [gpgErr, addErr], fileLeft := true }
    else
      { result := Except.ok (),
        events := [Event.gpgCall privArg, Event.addCall name pubArg tmp],
        terminal := [gpgErr, addErr], fileLeft := true })

/-- decrypt_file (source lines 62-73): defined in the script but never
called by main.  It decrypts into a NamedTemporaryFile created with
delete=False, unlinks it manually when gpg fails, and on success returns
the path of the still-existing plaintext file to its (nonexistent)
caller. -/
def decrypt_file (inputFile : String) (gpgExit : ℕ) (gpgErr : String) : CallSummary String :=
  withTempFile false (fun tmp =>
    if gpgExit ≠ 0 then
      { result := Except.error (Exc.valueError
          ("Error: Failed decrypting file: " ++ cpeStr (gpgCmd inputFile) gpgExit)),
        events := [Event.gpgCall inputFile], terminal := [gpgErr], fileLeft := false }
    else
      { result := Except.ok tmp,
        events := [Event.gpgCall inputFile], terminal := [gpgErr], fileLeft := true })

/-- One run's external world: CLI arguments (with the argparse defaults),
the filesystem, the initial CA namespace, and the exit status and stderr
text of each external command in program order.  Contract of the
black-box CA tool: a remove with exit status 0 removes the name from the
namespace, an add with exit status 0 appends it, and the listing prints
the namespace one name per line. -/
structure Env where
  scriptDir : String
  argsPub : String := "key.pub"
  argsPriv : String := "key.priv.gpg"
  provName : String := "tempjwk"
  adminProv : String := "KumiDC"
  adminSubj : String := "admin"
  timeoutArg : ℤ := 300
  fileExists : String → Bool
  ca0 : List String
  listExit : ℕ
  listErr : String
  delete1Exit : ℕ
  delete1Err : String
  gpgExit : ℕ
  gpgErr : String
  addExit : ℕ
  addErr : String
  delete2Exit : ℕ
  delete2Err : String
  epsD : ℕ
  arrival : Option ℚ

/-- The script-dir-resolved key paths of source lines 98-99. -/
def resolvedPub (env : Env) : String := resolvePath env.scriptDir env.argsPub

def resolvedPriv (env : Env) : String := resolvePath env.scriptDir env.argsPriv

structure RunResult where
  events : List Event
  transcript : List String
  exitCode : ℕ
  uncaught : Bool
  tempLeft : Bool
  caAtAdd : Option (List String)
  finalCA : List String
  polls : ℕ
deriving DecidableEq, Repr

/-- Source lines 138-159: the added/press prints, the wait loop, and the
final delete.  The loop result is not inspected: both outcomes fall
through to the same delete call. -/
def runWaitDelete (env : Env) (evs : List Event) (ts : List String)
    (ca : List String) (left : Bool) (caA : Option (List String)) : RunResult :=
  let w := waitRun (env.timeoutArg : ℚ) env.epsD env.arrival
  let ts1 := ts ++ [msgAdded env.provName, msgPress env.timeoutArg]
  let evs1 := evs ++ [Event.waitEv w.1, Event.deleteCall env.provName]
  let ts2 := ts1 ++ [env.delete2Err]
  match delete_provisioner env.provName env.adminProv env.adminSubj env.delete2Exit with
  | Except.ok _ =>
    { events := evs1, transcript := ts2 ++ [msgDeleted env.provName], exitCode := 0,
      uncaught := false, tempLeft := left, caAtAdd := caA,
      finalCA := ca.erase env.provName, polls := w.2.2 }
  | Except.error e =>
    { events := evs1, transcript := ts2 ++ [tracebackLine (Exc.message e)], exitCode := 1,
      uncaught := true, tempLeft := left, caAtAdd := caA,
      finalCA := ca, polls := w.2.2 }

/-- Source lines 127-137: call add_provisioner.  The except clause watches
for CalledProcessError, so the ValueError actually raised escapes
uncaught. -/
def runAdd (env : Env) (evs : List Event) (ts : List String) (ca : List String) : RunResult :=
  let r := add_provisioner env.provName env.adminProv env.adminSubj env.argsPriv env.argsPub
    env.gpgExit env.gpgErr env.addExit env.addErr
  let evs1 := evs ++ r.events
  let ts1 := ts ++ r.terminal
  let caA := if env.gpgExit = 0 then some ca else none
  match r.result with
  | Except.error (Exc.cpe m) =>
    { events := evs1, transcript := ts1 ++ [msgAddCaught env.provName m], exitCode := 1,
      uncaught := false, tempLeft := r.fileLeft, caAtAdd := caA, finalCA := ca, polls := 0 }
  | Except.error (Exc.valueError m) =>
    { events := evs1, transcript := ts1 ++ [tracebackLine m], exitCode := 1,
      uncaught := true, tempLeft := r.fileLeft, caAtAdd := caA, finalCA := ca, polls := 0 }
  | Except.ok _ => runWaitDelete env evs1 ts1 (ca ++ [env.provName]) r.fileLeft caA

/-- Source lines 106-125: query the CA, then delete any existing
provisioner of the same name.  The query handler catches the
CalledProcessError; the delete handler watches the wrong exception type,
so the delete ValueError escapes uncaught. -/
def runCheckAndDelete (env : Env) (pubPath : String) : RunResult :=
  let evs := [Event.checkPub pubPath, Event.listCall]
  match check_provisioner env.provName env.listExit (listingOutput env.ca0) with
  | Except.error (Exc.cpe m) =>
    { events := evs, transcript := [msgQueryFail m], exitCode := 1, uncaught := false,
      tempLeft := false, caAtAdd := none, finalCA := env.ca0, polls := 0 }
  | Except.error (Exc.valueError m) =>
    { events := evs, transcript := [tracebackLine m], exitCode := 1, uncaught := true,
      tempLeft := false, caAtAdd := none, finalCA := env.ca0, polls := 0 }
  | Except.ok b =>
    if b then
      let evs1 := evs ++ [Event.deleteCall env.provName]
      let ts1 := [msgExists env.provName, env.delete1Err]
      match delete_provisioner env.provName env.adminProv env.adminSubj env.delete1Exit with
      | Except.ok _ =>
        runAdd env evs1 (ts1 ++ [msgExistingDeleted env.provName]) (env.ca0.erase env.provName)
      | Except.error e =>
        { events := evs1, transcript := ts1 ++ [tracebackLine (Exc.message e)], exitCode := 1,
          uncaught := true, tempLeft := false, caAtAdd := none, finalCA := env.ca0, polls := 0 }
    else runAdd env evs [] env.ca0

/-- main (source lines 76-159): resolve the key paths against the script
directory, test the resolved public key for existence, then run the
check/delete/add/wait/delete sequence. -/
def main (env : Env) : RunResult :=
  let pubPath := resolvePath env.scriptDir env.argsPub
  match env.fileExists pubPath with
  | false =>
    { events := [Event.checkPub pubPath], transcript := [msgPubMissing], exitCode := 1,
      uncaught := false, tempLeft := false, caAtAdd := none, finalCA := env.ca0, polls := 0 }
  | true => runCheckAndDelete env pubPath


/-! ### Evaluation lemmas: one per control-flow path of main -/

lemma main_pubMissing (env : Env) (h : env.fileExists (resolvedPub env) = false) :
    main env = { events := [Event.checkPub (resolvedPub env)],
                 transcript := [msgPubMissing],
                 exitCode := 1,
                 uncaught := false,
                 tempLeft := false,
                 caAtAdd := none,
                 finalCA := env.ca0,
                 polls := 0 } := by
  simp only [main]
  rw [show env.fileExists (resolvePath env.scriptDir env.argsPub) = false from h]
  rfl

lemma main_queryFail (env : Env) (h1 : env.fileExists (resolvedPub env) = true)
    (h2 : env.listExit ≠ 0) :
    main env = { events := [Event.checkPub (resolvedPub env), Event.listCall],
                 transcript := [msgQueryFail (cpeStr listCmd env.listExit)],
                 exitCode := 1,
                 uncaught := false,
                 tempLeft := false,
                 caAtAdd := none,
                 finalCA := env.ca0,
                 polls := 0 } := by
  simp only [main]
  rw [show env.fileExists (resolvePath env.scriptDir env.argsPub) = true from h1]
  simp [runCheckAndDelete, check_provisioner, h2]
  rfl

lemma main_delete1Fail (env : Env) (h1 : env.fileExists (resolvedPub env) = true)
    (h2 : env.listExit = 0) (h3 : substrB env.provName (listingOutput env.ca0) = true)
    (h4 : env.delete1Exit ≠ 0) :
    main env = { events := [Event.checkPub (resolvedPub env), Event.listCall,
                            Event.deleteCall env.provName],
                 transcript := [msgExists env.provName, env.delete1Err,
                                tracebackLine (msgDeleteFail (cpeStr
                                  (removeCmd env.provName env.adminProv env.adminSubj)
                                  env.delete1Exit))],
                 exitCode := 1,
                 uncaught := true,
                 tempLeft := false,
                 caAtAdd := none,
                 finalCA := env.ca0,
                 polls := 0 } := by
  simp only [main]
  rw [show env.fileExists (resolvePath env.scriptDir env.argsPub) = true from h1]
  simp [runCheckAndDelete, check_provisioner, delete_provisioner, h2, h3, h4, Exc.message]
  rfl

lemma main_eq_runAdd_exists (env : Env) (h1 : env.fileExists (resolvedPub env) = true)
    (h2 : env.listExit = 0) (h3 : substrB env.provName (listingOutput env.ca0) = true)
    (h4 : env.delete1Exit = 0) :
    main env = runAdd env
      [Event.checkPub (resolvedPub env), Event.listCall, Event.deleteCall env.provName]
      [msgExists env.provName, env.delete1Err, msgExistingDeleted env.provName]
      (env.ca0.erase env.provName) := by
  simp only [main]
  rw [show env.fileExists (resolvePath env.scriptDir env.argsPub) = true from h1]
  simp only [runCheckAndDelete, check_provisioner, delete_provisioner, h2, h3, h4]
  norm_num [resolvedPub]

lemma main_eq_runAdd_absent (env : Env) (h1 : env.fileExists (resolvedPub env) = true)
    (h2 : env.listExit = 0) (h3 : substrB env.provName (listingOutput env.ca0) = false) :
    main env = runAdd env [Event.checkPub (resolvedPub env), Event.listCall] [] env.ca0 := by
  simp only [main]
  rw [show env.fileExists (resolvePath env.scriptDir env.argsPub) = true from h1]
  simp only [runCheckAndDelete, check_provisioner, h2, h3]
  norm_num [resolvedPub]

lemma runAdd_gpgFail (env : Env) (evs : List Event) (ts : List String) (ca : List String)
    (h : env.gpgExit ≠ 0) :
    runAdd env evs ts ca =
      { events := evs ++ [Event.gpgCall env.argsPriv],
        transcript := ts ++ [env.gpgErr] ++ [tracebackLine msgDecryptFail],
        exitCode := 1,
        uncaught := true,
        tempLeft := false,
        caAtAdd := none,
        finalCA := ca,
        polls := 0 } := by
  simp [runAdd, add_provisioner, withTempFile, h]

lemma runAdd_addFail (env : Env) (evs : List Event) (ts : List String) (ca : List String)
    (h1 : env.gpgExit = 0) (h2 : env.addExit ≠ 0) :
    runAdd env evs ts ca =
      { events := evs ++ [Event.gpgCall env.argsPriv,
                          Event.addCall env.provName env.argsPub tempName],
        transcript := ts ++ [env.gpgErr, env.addErr] ++ [tracebackLine (msgAddFail
          (cpeStr (addCmd env.provName env.adminProv env.adminSubj env.argsPub tempName)
            env.addExit))],
        exitCode := 1,
        uncaught := true,
        tempLeft := false,
        caAtAdd := some ca,
        finalCA := ca,
        polls := 0 } := by
  simp [runAdd, add_provisioner, withTempFile, h1, h2]

lemma runAdd_ok (env : Env) (evs : List Event) (ts : List String) (ca : List String)
    (h1 : env.gpgExit = 0) (h2 : env.addExit = 0) :
    runAdd env evs ts ca = runWaitDelete env
      (evs ++ [Event.gpgCall env.argsPriv, Event.addCall env.provName env.argsPub tempName])
      (ts ++ [env.gpgErr, env.addErr]) (ca ++ [env.provName]) false (some ca) := by
  simp [runAdd, add_provisioner, withTempFile, h1, h2]

lemma runWaitDelete_ok (env : Env) (evs : List Event) (ts : List String) (ca : List String)
    (left : Bool) (caA : Option (List String)) (h : env.delete2Exit = 0) :
    runWaitDelete env evs ts ca left caA =
      { events := evs ++ [Event.waitEv (waitRun (env.timeoutArg : ℚ) env.epsD env.arrival).1,
                          Event.deleteCall env.provName],
        transcript := ts ++ [msgAdded env.provName, msgPress env.timeoutArg]
          ++ [env.delete2Err] ++ [msgDeleted env.provName],
        exitCode := 0,
        uncaught := false,
        tempLeft := left,
        caAtAdd := caA,
        finalCA := ca.erase env.provName,
        polls := (waitRun (env.timeoutArg : ℚ) env.epsD env.arrival).2.2 } := by
  simp [runWaitDelete, delete_provisioner, h]

lemma runWaitDelete_fail (env : Env) (evs : List Event) (ts : List String) (ca : List String)
    (left : Bool) (caA : Option (List String)) (h : env.delete2Exit ≠ 0) :
    runWaitDelete env evs ts ca left caA =
      { events := evs ++ [Event.waitEv (waitRun (env.timeoutArg : ℚ) env.epsD env.arrival).1,
                          Event.deleteCall env.provName],
        transcript := ts ++ [msgAdded env.provName, msgPress env.timeoutArg]
          ++ [env.delete2Err] ++ [tracebackLine (msgDeleteFail
            (cpeStr (removeCmd env.provName env.adminProv env.adminSubj) env.delete2Exit))],
        exitCode := 1,
        uncaught := true,
        tempLeft := left,
        caAtAdd := caA,
        finalCA := ca,
        polls := (waitRun (env.timeoutArg : ℚ) env.epsD env.arrival).2.2 } := by
  simp [runWaitDelete, delete_provisioner, h, Exc.message]

/-! ### Substring and transcript helpers -/

/-- A needle occurs somewhere in a transcript (list of terminal lines). -/
def appears (needle : String) (ts : List String) : Bool :=
  ts.any (fun m => substrB needle m)

lemma substrB_self (s : String) : substrB s s = true := by
  simp [substrB]

lemma substrB_append_right (n a b : String) (h : substrB n a = true) :
    substrB n (a ++ b) = true := by
  simp only [substrB, decide_eq_true_eq] at h ⊢
  rw [String.data_append]
  exact List.IsInfix.trans h ( List.IsPrefix.isInfix (List.prefix_append a.data b.data))

lemma substrB_append_left (n a b : String) (h : substrB n b = true) :
    substrB n (a ++ b) = true := by
  simp only [substrB, decide_eq_true_eq] at h ⊢
  rw [String.data_append]
  exact List.IsInfix.trans h ( List.IsSuffix.isInfix (List.suffix_append a.data b.data))

/-- A name in the CA namespace is a substring of the listing output. -/
lemma mem_substrB_listing : ∀ (l : List String) (x : String), x ∈ l →
    substrB x (listingOutput l) = true
  | [], x, h => by cases h
  | [y], x, h => by
    rw [List.mem_singleton] at h
    rw [h]
    exact substrB_self y
  | y :: z :: rest, x, h => by
    rcases List.mem_cons.mp h with h1 | h2
    · rw [h1]
      exact substrB_append_right _ _ _ (substrB_self y)
    · exact substrB_append_left _ _ _
        (substrB_append_left _ _ _ (mem_substrB_listing (z :: rest) x h2))

lemma appears_of_mem_sub (n m : String) (ts : List String) (hm : m ∈ ts)
    (h : substrB n m = true) : appears n ts = true := by
  simp only [appears, List.any_eq_true, decide_eq_true_eq]
  exact ⟨m, hm, h⟩

/-! ### Event classification and trace decomposition -/

def Event.isWait : Event → Bool
  | .waitEv _ => true
  | _ => false

def Event.isAdd : Event → Bool
  | .addCall _ _ _ => true
  | _ => false

/-- A list of the form A ++ w :: B, where only w satisfies p, decomposes
uniquely around any p-element. -/
lemma append_mid_decomp {α : Type} (p : α → Bool) (A : List α) (w : α) (B : List α) :
    ∀ (pre post : List α) (e : α),
      (∀ a ∈ A, p a = false) → p w = true → (∀ a ∈ B, p a = false) → p e = true →
      A ++ w :: B = pre ++ e :: post → pre = A ∧ e = w ∧ post = B := by
  induction A with
  | nil =>
    intro pre post e _ hw hB he heq
    cases pre with
    | nil =>
      simp only [List.nil_append] at heq
      injection heq with h1 h2
      exact ⟨rfl, h1.symm, h2.symm⟩
    | cons b pre2 =>
      simp only [List.nil_append, List.cons_append] at heq
      injection heq with h1 h2
      have hin : e ∈ B := by
        rw [h2]
        exact List.mem_append_right _ (List.mem_cons_self _ _)
      have hfalse := hB e hin
      rw [hfalse] at he
      exact Bool.noConfusion he
  | cons a A2 ih =>
    intro pre post e hA hw hB he heq
    cases pre with
    | nil =>
      simp only [List.cons_append, List.nil_append] at heq
      injection heq with h1 h2
      have hfalse := hA a (by simp)
      rw [h1] at hfalse
      rw [hfalse] at he
      exact Bool.noConfusion he
    | cons b pre2 =>
      simp only [List.cons_append] at heq
      injection heq with h1 h2
      obtain ⟨g1, g2, g3⟩ := ih pre2 post e (fun y hy => hA y (by simp [hy])) hw hB he h2
      refine ⟨?_, g2, g3⟩
      rw [← h1, g1]

/-! ### Structural facts about the stages -/

lemma runWaitDelete_events (env : Env) (evs : List Event) (ts ca : List String)
    (left : Bool) (caA : Option (List String)) :
    (runWaitDelete env evs ts ca left caA).events
      = evs ++ [Event.waitEv (waitRun (env.timeoutArg : ℚ) env.epsD env.arrival).1,
                Event.deleteCall env.provName] := by
  simp only [runWaitDelete]
  split <;> rfl

lemma runWaitDelete_polls (env : Env) (evs : List Event) (ts ca : List String)
    (left : Bool) (caA : Option (List String)) :
    (runWaitDelete env evs ts ca left caA).polls
      = (waitRun (env.timeoutArg : ℚ) env.epsD env.arrival).2.2 := by
  simp only [runWaitDelete]
  split <;> rfl

lemma runWaitDelete_tempLeft (env : Env) (evs : List Event) (ts ca : List String)
    (left : Bool) (caA : Option (List String)) :
    (runWaitDelete env evs ts ca left caA).tempLeft = left := by
  simp only [runWaitDelete]
  split <;> rfl

lemma runAdd_tempLeft (env : Env) (evs : List Event) (ts ca : List String) :
    (runAdd env evs ts ca).tempLeft = false := by
  by_cases h1 : env.gpgExit = 0
  · by_cases h2 : env.addExit = 0
    · rw [runAdd_ok env evs ts ca h1 h2, runWaitDelete_tempLeft]
    · rw [runAdd_addFail env evs ts ca h1 h2]
  · rw [runAdd_gpgFail env evs ts ca h1]

lemma main_tempLeft (env : Env) : (main env).tempLeft = false := by
  cases h1 : env.fileExists (resolvedPub env) with
  | false => rw [main_pubMissing env h1]
  | true =>
    by_cases h2 : env.listExit = 0
    · cases h3 : substrB env.provName (listingOutput env.ca0) with
      | true =>
        by_cases h4 : env.delete1Exit = 0
        · rw [main_eq_runAdd_exists env h1 h2 h3 h4, runAdd_tempLeft]
        · rw [main_delete1Fail env h1 h2 h3 h4]
      | false => rw [main_eq_runAdd_absent env h1 h2 h3, runAdd_tempLeft]
    · rw [main_queryFail env h1 h2]

lemma runAdd_shape (env : Env) (evs : List Event) (ts ca : List String)
    (hevs : ∀ e ∈ evs, Event.isWait e = false) :
    (∃ pre, (∀ e ∈ pre, Event.isWait e = false) ∧
      (runAdd env evs ts ca).events
        = pre ++ [Event.waitEv (waitRun (env.timeoutArg : ℚ) env.epsD env.arrival).1,
                  Event.deleteCall env.provName] ∧
      (runAdd env evs ts ca).polls
        = (waitRun (env.timeoutArg : ℚ) env.epsD env.arrival).2.2) ∨
    ((∀ e ∈ (runAdd env evs ts ca).events, Event.isWait e = false) ∧
      (runAdd env evs ts ca).polls = 0) := by
  by_cases h1 : env.gpgExit = 0
  · by_cases h2 : env.addExit = 0
    · left
      rw [runAdd_ok env evs ts ca h1 h2, runWaitDelete_events, runWaitDelete_polls]
      refine ⟨evs ++ [Event.gpgCall env.argsPriv,
        Event.addCall env.provName env.argsPub tempName], ?_, rfl, rfl⟩
      intro e he
      rcases List.mem_append.mp he with h | h
      · exact hevs e h
      · rcases List.mem_cons.mp h with h | h
        · rw [h]; rfl
        · rw [List.mem_singleton.mp h]; rfl
    · right
      rw [runAdd_addFail env evs ts ca h1 h2]
      refine ⟨?_, rfl⟩
      intro e he
      rcases List.mem_append.mp he with h | h
      · exact hevs e h
      · rcases List.mem_cons.mp h with h | h
        · rw [h]; rfl
        · rw [List.mem_singleton.mp h]; rfl
  · right
    rw [runAdd_gpgFail env evs ts ca h1]
    refine ⟨?_, rfl⟩
    intro e he
    rcases List.mem_append.mp he with h | h
    · exact hevs e h
    · rw [List.mem_singleton.mp h]; rfl

/-- Every run either reaches the wait (and then its trace ends with the
wait followed immediately by the final delete call) or contains no wait
event and no poll at all. -/
lemma main_shape (env : Env) :
    (∃ pre, (∀ e ∈ pre, Event.isWait e = false) ∧
      (main env).events
        = pre ++ [Event.waitEv (waitRun (env.timeoutArg : ℚ) env.epsD env.arrival).1,
                  Event.deleteCall env.provName] ∧
      (main env).polls = (waitRun (env.timeoutArg : ℚ) env.epsD env.arrival).2.2) ∨
    ((∀ e ∈ (main env).events, Event.isWait e = false) ∧ (main env).polls = 0) := by
  cases h1 : env.fileExists (resolvedPub env) with
  | false =>
    right
    rw [main_pubMissing env h1]
    refine ⟨?_, rfl⟩
    intro e he
    rw [List.mem_singleton.mp he]
    rfl
  | true =>
    by_cases h2 : env.listExit = 0
    · cases h3 : substrB env.provName (listingOutput env.ca0) with
      | true =>
        by_cases h4 : env.delete1Exit = 0
        · rw [main_eq_runAdd_exists env h1 h2 h3 h4]
          refine runAdd_shape env _ _ _ ?_
          intro e he
          rcases List.mem_cons.mp he with h | h
          · rw [h]; rfl
          · rcases List.mem_cons.mp h with h | h
            · rw [h]; rfl
            · rw [List.mem_singleton.mp h]; rfl
        · right
          rw [main_delete1Fail env h1 h2 h3 h4]
          refine ⟨?_, rfl⟩
          intro e he
          rcases List.mem_cons.mp he with h | h
          · rw [h]; rfl
          · rcases List.mem_cons.mp h with h | h
            · rw [h]; rfl
            · rw [List.mem_singleton.mp h]; rfl
      | false =>
        rw [main_eq_runAdd_absent env h1 h2 h3]
        refine runAdd_shape env _ _ _ ?_
        intro e he
        rcases List.mem_cons.mp he with h | h
        · rw [h]; rfl
        · rw [List.mem_singleton.mp h]; rfl
    · right
      rw [main_queryFail env h1 h2]
      refine ⟨?_, rfl⟩
      intro e he
      rcases List.mem_cons.mp he with h | h
      · rw [h]; rfl
      · rw [List.mem_singleton.mp h]; rfl

/-! ### Concrete environments for witnesses and counterexamples -/

def baseEnv : Env :=
  { scriptDir := "/opt/tempjwk", timeoutArg := 0, fileExists := fun _ => true,
    ca0 := ["tempjwk"], listExit := 0, listErr := "", delete1Exit := 0, delete1Err := "",
    gpgExit := 0, gpgErr := "", addExit := 0, addErr := "",
    delete2Exit := 0, delete2Err := "", epsD := 0, arrival := none }

def envC1 : Env := { baseEnv with ca0 := [] }

def envC2 : Env := { baseEnv with listExit := 1, listErr := "gremlin-diagnostic" }

def envC4 : Env := { baseEnv with ca0 := ["tempjwk", "xtempjwkx"] }

def envC8 : Env := { baseEnv with listExit := 1 }

def envC9 : Env := { baseEnv with fileExists := fun _ => false }

def envC10 : Env := { baseEnv with arrival := some 0 }

def envW2 : Env := { baseEnv with delete2Exit := 3, delete2Err := "boom" }

/-! ### Diagnostic-output helpers for the failure paths -/

lemma runAdd_gpgFail_diag (env : Env) (evs : List Event) (ts ca : List String)
    (h : env.gpgExit ≠ 0) :
    (runAdd env evs ts ca).exitCode = 1 ∧ (runAdd env evs ts ca).uncaught = true ∧
    appears msgDecryptFail (runAdd env evs ts ca).transcript = true ∧
    env.gpgErr ∈ (runAdd env evs ts ca).transcript := by
  rw [runAdd_gpgFail env evs ts ca h]
  refine ⟨rfl, rfl, ?_, by simp⟩
  refine appears_of_mem_sub _ (tracebackLine msgDecryptFail) _ (by simp) ?_
  show substrB msgDecryptFail
    ("Traceback (most recent call last): ValueError: " ++ msgDecryptFail) = true
  exact substrB_append_left _ _ _ (substrB_self _)

lemma runAdd_addFail_diag (env : Env) (evs : List Event) (ts ca : List String)
    (h1 : env.gpgExit = 0) (h2 : env.addExit ≠ 0) :
    (runAdd env evs ts ca).exitCode = 1 ∧ (runAdd env evs ts ca).uncaught = true ∧
    appears "Failed to add provisioner" (runAdd env evs ts ca).transcript = true ∧
    env.addErr ∈ (runAdd env evs ts ca).transcript := by
  rw [runAdd_addFail env evs ts ca h1 h2]
  refine ⟨rfl, rfl, ?_, by simp⟩
  refine appears_of_mem_sub _ (tracebackLine (msgAddFail
    (cpeStr (addCmd env.provName env.adminProv env.adminSubj env.argsPub tempName)
      env.addExit))) _ (by simp) ?_
  show substrB "Failed to add provisioner"
    ("Traceback (most recent call last): ValueError: "
      ++ ("Error: Failed to add provisioner: "
        ++ cpeStr (addCmd env.provName env.adminProv env.adminSubj env.argsPub tempName)
          env.addExit)) = true
  exact substrB_append_left _ _ _ (substrB_append_right _ _ _ (by decide))

lemma runWaitDelete_fail_diag (env : Env) (evs : List Event) (ts ca : List String)
    (left : Bool) (caA : Option (List String)) (h : env.delete2Exit ≠ 0) :
    (runWaitDelete env evs ts ca left caA).exitCode = 1 ∧
    (runWaitDelete env evs ts ca left caA).uncaught = true ∧
    appears "Failed to delete provisioner"
      (runWaitDelete env evs ts ca left caA).transcript = true ∧
    env.delete2Err ∈ (runWaitDelete env evs ts ca left caA).transcript := by
  rw [runWaitDelete_fail env evs ts ca left caA h]
  refine ⟨rfl, rfl, ?_, by simp⟩
  refine appears_of_mem_sub _ (tracebackLine (msgDeleteFail
    (cpeStr (removeCmd env.provName env.adminProv env.adminSubj)
      env.delete2Exit))) _ (by simp) ?_
  show substrB "Failed to delete provisioner"
    ("Traceback (most recent call last): ValueError: "
      ++ ("Error: Failed to delete provisioner: "
        ++ cpeStr (removeCmd env.provName env.adminProv env.adminSubj)
          env.delete2Exit)) = true
  exact substrB_append_left _ _ _ (substrB_append_right _ _ _ (by decide))

/-! ## The claims -/

/-- Claim C3: the private-key decryption used by the program (inside
add_provisioner, a NamedTemporaryFile with-block) deletes its temporary
plaintext file on every exit path of the consuming operation — gpg
failure, add failure and success alike — so no run of main ever leaves
the plaintext temp file behind. -/
theorem c3_no_plaintext_left (env : Env) (name adminP adminS privArg pubArg : String)
    (gE : ℕ) (gErr : String) (aE : ℕ) (aErr : String) :
    (add_provisioner name adminP adminS privArg pubArg gE gErr aE aErr).fileLeft = false ∧
    (main env).tempLeft = false :=
  ⟨rfl, main_tempLeft env⟩

/-- Claim C6: the wait operation with a non-negative timeout T and no
input always terminates (the fuelled loop returns a value — there is no
error outcome) with the timed-out outcome, at an elapsed time of no less
than T and no more than T + 1 seconds. -/
theorem c6_wait_timeout_bounds (T : ℚ) (d : ℕ) (hT : 0 ≤ T) :
    (waitFrom T d none (waitFuel T) 0).isSome = true ∧
    (waitRun T d none).1 = WaitOutcome.timedOut ∧
    T ≤ (waitRun T d none).2.1 ∧
    (waitRun T d none).2.1 ≤ T + 1 := by
  obtain ⟨n, hmin, hTn, hfrom⟩ := waitRun_none T d
  have hrun : waitRun T d none = (WaitOutcome.timedOut, chk d n, n) := by
    unfold waitRun
    rw [hfrom]
    rfl
  refine ⟨by rw [hfrom]; rfl, by rw [hrun], ?_, ?_⟩
  · rw [hrun]
    show T ≤ chk d n
    exact le_of_lt hTn
  · rw [hrun]
    show chk d n ≤ T + 1
    rcases n with _ | m
    · have h1 := eps_le_half d
      rw [chk_zero]
      linarith
    · have hm := hmin m (Nat.lt_succ_self m)
      push_neg at hm
      rw [chk_succ]
      linarith

theorem c6_witness :
    (0 : ℚ) ≤ 3 ∧
    ((waitFrom 3 0 none (waitFuel 3) 0).isSome = true ∧
     (waitRun 3 0 none).1 = WaitOutcome.timedOut ∧
     (3 : ℚ) ≤ (waitRun 3 0 none).2.1 ∧ (waitRun 3 0 none).2.1 ≤ 3 + 1) :=
  ⟨by norm_num, c6_wait_timeout_bounds 3 0 (by norm_num)⟩

/-- Claim C7: input becoming readable at time t < T makes the wait return
the cancelled outcome within one 0.5-second polling interval of t, for
any input content (the loop only tests readiness and discards content). -/
theorem c7_wait_cancelled_within_interval (T t : ℚ) (d : ℕ) (content : String)
    (ht0 : 0 ≤ t) (htT : t < T) (he : eps d ≤ T) :
    (waitRunInput T d (some (t, content))).1 = WaitOutcome.cancelled ∧
    t ≤ (waitRunInput T d (some (t, content))).2.1 ∧
    (waitRunInput T d (some (t, content))).2.1 ≤ t + 1/2 := by
  obtain ⟨n, hnT, hcnd, hup, hfrom⟩ := waitRun_some T t d ht0 htT he
  have hrun : waitRunInput T d (some (t, content))
      = (WaitOutcome.cancelled, max (chk d n) t, n + 1) := by
    show (waitFrom T d (some t) (waitFuel T) 0).getD (WaitOutcome.timedOut, eps d, 0) = _
    rw [hfrom]
    rfl
  refine ⟨by rw [hrun], ?_, ?_⟩
  · rw [hrun]
    show t ≤ max (chk d n) t
    exact le_max_right _ _
  · rw [hrun]
    show max (chk d n) t ≤ t + 1/2
    exact max_le hup (by linarith)

theorem c7_witness :
    (0 : ℚ) ≤ 2 ∧ (2 : ℚ) < 10 ∧ eps 0 ≤ 10 ∧
    ((waitRunInput 10 0 (some (2, "x"))).1 = WaitOutcome.cancelled ∧
     (2 : ℚ) ≤ (waitRunInput 10 0 (some (2, "x"))).2.1 ∧
     (waitRunInput 10 0 (some (2, "x"))).2.1 ≤ 2 + 1/2) :=
  ⟨by norm_num, by norm_num, by norm_num [eps],
   c7_wait_cancelled_within_interval 10 2 0 "x" (by norm_num) (by norm_num)
     (by norm_num [eps])⟩

/-- Claim C9: when the resolved public key file does not exist, the run
exits with status 1 before any external command: its trace is the lone
existence check, with no list, delete, add or gpg call. -/
theorem c9_missing_pubkey_no_external_calls (env : Env)
    (h : env.fileExists (resolvedPub env) = false) :
    (main env).exitCode = 1 ∧
    (main env).events = [Event.checkPub (resolvedPub env)] ∧
    (main env).events.filter Event.isExternal = [] := by
  rw [main_pubMissing env h]
  exact ⟨rfl, rfl, rfl⟩

theorem c9_witness :
    envC9.fileExists (resolvedPub envC9) = false ∧
    ((main envC9).exitCode = 1 ∧
     (main envC9).events = [Event.checkPub (resolvedPub envC9)] ∧
     (main envC9).events.filter Event.isExternal = []) :=
  ⟨rfl, c9_missing_pubkey_no_external_calls envC9 rfl⟩

/-- Claim C8: check_provisioner answers exactly the substring test of the
name against the listing stdout; a non-zero listing exit is a
CalledProcessError, and main then exits with status 1 right after that
single listing call — no retry, no further external command. -/
theorem c8_check_provisioner_semantics (env : Env) (name out : String)
    (h1 : env.fileExists (resolvedPub env) = true) (h2 : env.listExit ≠ 0) :
    (check_provisioner name 0 out = Except.ok true ↔ substrB name out = true) ∧
    check_provisioner name env.listExit out
      = Except.error (Exc.cpe (cpeStr listCmd env.listExit)) ∧
    (main env).exitCode = 1 ∧
    (main env).events = [Event.checkPub (resolvedPub env), Event.listCall] := by
  refine ⟨?_, ?_, ?_, ?_⟩
  · cases hsub : substrB name out with
    | true => simp [check_provisioner, hsub]
    | false => simp [check_provisioner, hsub]
  · simp [check_provisioner, h2]
  · rw [main_queryFail env h1 h2]
  · rw [main_queryFail env h1 h2]

theorem c8_witness :
    envC8.fileExists (resolvedPub envC8) = true ∧ envC8.listExit ≠ 0 ∧
    ((check_provisioner "tempjwk" 0 "a tempjwk b" = Except.ok true
        ↔ substrB "tempjwk" "a tempjwk b" = true) ∧
     check_provisioner "tempjwk" envC8.listExit "a tempjwk b"
        = Except.error (Exc.cpe (cpeStr listCmd envC8.listExit)) ∧
     (main envC8).exitCode = 1 ∧
     (main envC8).events = [Event.checkPub (resolvedPub envC8), Event.listCall]) :=
  ⟨rfl, by decide,
   c8_check_provisioner_semantics envC8 "tempjwk" "a tempjwk b" rfl (by decide)⟩

/-- Claim C10: a non-positive timeout argument (argparse accepts any
integer, unchecked) makes the very first timeout check exit the wait
loop: zero select polls, the timed-out outcome even for already-buffered
input, and the run falls straight through the wait to the final delete
call. -/
theorem c10_nonpositive_timeout_skips_polling (env : Env) (hT : env.timeoutArg ≤ 0) :
    waitRun (env.timeoutArg : ℚ) env.epsD env.arrival
      = (WaitOutcome.timedOut, eps env.epsD, 0) ∧
    (main env).polls = 0 ∧
    (∀ o pre post, (main env).events = pre ++ Event.waitEv o :: post →
      o = WaitOutcome.timedOut ∧ post = [Event.deleteCall env.provName]) := by
  have hcast : ((env.timeoutArg : ℤ) : ℚ) ≤ 0 := by exact_mod_cast hT
  have hw := waitRun_nonpos _ hcast env.epsD env.arrival
  refine ⟨hw, ?_, ?_⟩
  · rcases main_shape env with ⟨pre0, _, _, hp⟩ | ⟨_, hp⟩
    · rw [hp, hw]
    · exact hp
  · intro o pre post heq
    rcases main_shape env with ⟨pre0, hpre0, hev, _⟩ | ⟨hall, _⟩
    · rw [hev] at heq
      obtain ⟨h1, h2, h3⟩ := append_mid_decomp Event.isWait pre0
        (Event.waitEv (waitRun (env.timeoutArg : ℚ) env.epsD env.arrival).1)
        [Event.deleteCall env.provName] pre post (Event.waitEv o)
        hpre0 rfl (by intro a ha; rw [List.mem_singleton.mp ha]; rfl) rfl heq
      injection h2 with ho
      refine ⟨?_, h3⟩
      rw [ho, hw]
    · exfalso
      have hin : Event.waitEv o ∈ (main env).events := by
        rw [heq]
        exact List.mem_append_right _ (List.mem_cons_self _ _)
      have hfw := hall _ hin
      exact Bool.noConfusion hfw

theorem c10_witness :
    envC10.timeoutArg ≤ 0 ∧
    waitRun (envC10.timeoutArg : ℚ) envC10.epsD envC10.arrival
      = (WaitOutcome.timedOut, eps envC10.epsD, 0) ∧
    (main envC10).polls = 0 :=
  ⟨by decide, (c10_nonpositive_timeout_skips_polling envC10 (by decide)).1,
   (c10_nonpositive_timeout_skips_polling envC10 (by decide)).2.1⟩

set_option maxRecDepth 8192 in
/-- Claim C1 (code bug): main resolves both key paths against the script
directory and checks the resolved public key for existence, but then
passes the RAW command-line argument strings to add_provisioner: with the
default arguments and script directory /opt/tempjwk, the existence check
tests /opt/tempjwk/key.pub while gpg decrypts key.priv.gpg and the add
command receives key.pub — not the script-dir-resolved paths the spec
describes (the resolved private-key path of source line 99 is never used
at all). -/
theorem c1_add_step_uses_unresolved_paths :
    resolvedPub envC1 = "/opt/tempjwk/key.pub" ∧
    resolvedPriv envC1 = "/opt/tempjwk/key.priv.gpg" ∧
    Event.checkPub "/opt/tempjwk/key.pub" ∈ (main envC1).events ∧
    Event.gpgCall "key.priv.gpg" ∈ (main envC1).events ∧
    Event.gpgCall "/opt/tempjwk/key.priv.gpg" ∉ (main envC1).events ∧
    Event.addCall "tempjwk" "key.pub" tempName ∈ (main envC1).events ∧
    Event.addCall "tempjwk" "/opt/tempjwk/key.pub" tempName ∉ (main envC1).events := by
  have hw : waitRun ((envC1.timeoutArg : ℤ) : ℚ) envC1.epsD envC1.arrival
      = (WaitOutcome.timedOut, eps envC1.epsD, 0) :=
    waitRun_nonpos _ (by norm_num [envC1, baseEnv]) envC1.epsD envC1.arrival
  have h := main_eq_runAdd_absent envC1 rfl rfl (by decide)
  rw [runAdd_ok envC1 _ _ _ rfl rfl, runWaitDelete_ok envC1 _ _ _ _ _ rfl] at h
  rw [h, hw]
  decide

set_option maxRecDepth 8192 in
/-- Claim C2 (counterexample): when the provisioner-list query fails, its
stderr was captured by check_provisioner and is discarded — the only
terminal line is the CalledProcessError summary, which does not contain
the tool diagnostic, so the printed diagnostic does NOT include the
underlying tool output as the claim states. -/
theorem c2_counterexample_query_stderr_discarded :
    envC2.listExit ≠ 0 ∧
    (main envC2).exitCode = 1 ∧
    appears envC2.listErr (main envC2).transcript = false := by
  refine ⟨by decide, by decide, by decide⟩

/-- Claim C2 (amended): every failing step terminates the process with
exit status 1 and a terminal line naming the failed step.  The delete and
add failures terminate via an uncaught ValueError (the except clauses in
main watch for CalledProcessError), whose traceback carries the
step-naming message, and their tools run uncaptured so their stderr
reaches the terminal; the query step's stderr, in contrast, is captured
and discarded, leaving only the CalledProcessError summary. -/
theorem c2_failures_exit_one_and_name_step (env : Env) :
    (env.fileExists (resolvedPub env) = false →
      (main env).exitCode = 1 ∧
      appears "public key file does not exist" (main env).transcript = true) ∧
    (env.fileExists (resolvedPub env) = true → env.listExit ≠ 0 →
      (main env).exitCode = 1 ∧
      appears "Failed to check if provisioner exists" (main env).transcript = true) ∧
    (env.fileExists (resolvedPub env) = true → env.listExit = 0 →
      substrB env.provName (listingOutput env.ca0) = true → env.delete1Exit ≠ 0 →
      (main env).exitCode = 1 ∧ (main env).uncaught = true ∧
      appears "Failed to delete provisioner" (main env).transcript = true ∧
      env.delete1Err ∈ (main env).transcript) ∧
    (env.fileExists (resolvedPub env) = true → env.listExit = 0 →
      (substrB env.provName (listingOutput env.ca0) = false ∨ env.delete1Exit = 0) →
      env.gpgExit ≠ 0 →
      (main env).exitCode = 1 ∧ (main env).uncaught = true ∧
      appears "Failed to decrypt private key" (main env).transcript = true ∧
      env.gpgErr ∈ (main env).transcript) ∧
    (env.fileExists (resolvedPub env) = true → env.listExit = 0 →
      (substrB env.provName (listingOutput env.ca0) = false ∨ env.delete1Exit = 0) →
      env.gpgExit = 0 → env.addExit ≠ 0 →
      (main env).exitCode = 1 ∧ (main env).uncaught = true ∧
      appears "Failed to add provisioner" (main env).transcript = true ∧
      env.addErr ∈ (main env).transcript) ∧
    (env.fileExists (resolvedPub env) = true → env.listExit = 0 →
      (substrB env.provName (listingOutput env.ca0) = false ∨ env.delete1Exit = 0) →
      env.gpgExit = 0 → env.addExit = 0 → env.delete2Exit ≠ 0 →
      (main env).exitCode = 1 ∧ (main env).uncaught = true ∧
      appears "Failed to delete provisioner" (main env).transcript = true ∧
      env.delete2Err ∈ (main env).transcript) := by
  refine ⟨?_, ?_, ?_, ?_, ?_, ?_⟩
  · intro h
    rw [main_pubMissing env h]
    refine ⟨rfl, ?_⟩
    exact appears_of_mem_sub _ msgPubMissing _ (by simp) (by decide)
  · intro h1 h2
    rw [main_queryFail env h1 h2]
    refine ⟨rfl, ?_⟩
    refine appears_of_mem_sub _ (msgQueryFail (cpeStr listCmd env.listExit)) _ (by simp) ?_
    show substrB "Failed to check if provisioner exists"
      ("Error: Failed to check if provisioner exists: " ++ cpeStr listCmd env.listExit)
        = true
    exact substrB_append_right _ _ _ (by decide)
  · intro h1 h2 h3 h4
    rw [main_delete1Fail env h1 h2 h3 h4]
    refine ⟨rfl, rfl, ?_, by simp⟩
    refine appears_of_mem_sub _ (tracebackLine (msgDeleteFail
      (cpeStr (removeCmd env.provName env.adminProv env.adminSubj) env.delete1Exit)))
      _ (by simp) ?_
    show substrB "Failed to delete provisioner"
      ("Traceback (most recent call last): ValueError: "
        ++ ("Error: Failed to delete provisioner: "
          ++ cpeStr (removeCmd env.provName env.adminProv env.adminSubj)
            env.delete1Exit)) = true
    exact substrB_append_left _ _ _ (substrB_append_right _ _ _ (by decide))
  · intro h1 h2 hreach h5
    rcases hreach with h3 | h4
    · rw [main_eq_runAdd_absent env h1 h2 h3]
      exact runAdd_gpgFail_diag env _ _ _ h5
    · cases h3 : substrB env.provName (listingOutput env.ca0) with
      | true =>
        rw [main_eq_runAdd_exists env h1 h2 h3 h4]
        exact runAdd_gpgFail_diag env _ _ _ h5
      | false =>
        rw [main_eq_runAdd_absent env h1 h2 h3]
        exact runAdd_gpgFail_diag env _ _ _ h5
  · intro h1 h2 hreach h5 h6
    rcases hreach with h3 | h4
    · rw [main_eq_runAdd_absent env h1 h2 h3]
      exact runAdd_addFail_diag env _ _ _ h5 h6
    · cases h3 : substrB env.provName (listingOutput env.ca0) with
      | true =>
        rw [main_eq_runAdd_exists env h1 h2 h3 h4]
        exact runAdd_addFail_diag env _ _ _ h5 h6
      | false =>
        rw [main_eq_runAdd_absent env h1 h2 h3]
        exact runAdd_addFail_diag env _ _ _ h5 h6
  · intro h1 h2 hreach h5 h6 h7
    rcases hreach with h3 | h4
    · rw [main_eq_runAdd_absent env h1 h2 h3, runAdd_ok env _ _ _ h5 h6]
      exact runWaitDelete_fail_diag env _ _ _ _ _ h7
    · cases h3 : substrB env.provName (listingOutput env.ca0) with
      | true =>
        rw [main_eq_runAdd_exists env h1 h2 h3 h4, runAdd_ok env _ _ _ h5 h6]
        exact runWaitDelete_fail_diag env _ _ _ _ _ h7
      | false =>
        rw [main_eq_runAdd_absent env h1 h2 h3, runAdd_ok env _ _ _ h5 h6]
        exact runWaitDelete_fail_diag env _ _ _ _ _ h7

theorem c2_witness :
    (main envW2).exitCode = 1 ∧ (main envW2).uncaught = true ∧
    appears "Failed to delete provisioner" (main envW2).transcript = true ∧
    envW2.delete2Err ∈ (main envW2).transcript :=
  (c2_failures_exit_one_and_name_step envW2).2.2.2.2.2 rfl rfl (Or.inr rfl) rfl rfl
    (by decide)

lemma runWaitDelete_caAtAdd (env : Env) (evs : List Event) (ts ca : List String)
    (left : Bool) (caA : Option (List String)) :
    (runWaitDelete env evs ts ca left caA).caAtAdd = caA := by
  simp only [runWaitDelete]
  split <;> rfl

set_option maxRecDepth 8192 in
/-- Claim C4 (counterexample): a run can exit with status 0 while
provisionerExists still answers true afterwards, because the check is a
substring test: with another provisioner named xtempjwkx on the CA, the
listing after a fully successful run still contains tempjwk as a
substring. -/
theorem c4_counterexample_substring_alias :
    (main envC4).exitCode = 0 ∧
    envC4.provName ∉ (main envC4).finalCA ∧
    substrB envC4.provName (listingOutput (main envC4).finalCA) = true ∧
    check_provisioner envC4.provName 0 (listingOutput (main envC4).finalCA)
      = Except.ok true := by
  have hs : substrB envC4.provName (listingOutput (main envC4).finalCA) = true := by decide
  refine ⟨by decide, by decide, hs, ?_⟩
  simp [check_provisioner, hs]

/-- Claim C4 (amended): every wait event in a trace is immediately and
unconditionally followed by the final delete call, whichever outcome the
wait had; and after a run that exits with status 0 the configured name is
absent from the CA namespace (though the substring-based
provisionerExists may still answer true when another provisioner name
contains it, see the counterexample). -/
theorem c4_final_delete_unconditional (env : Env) (hnd : env.ca0.Nodup) :
    (∀ o pre post, (main env).events = pre ++ Event.waitEv o :: post →
      post = [Event.deleteCall env.provName]) ∧
    ((main env).exitCode = 0 → env.provName ∉ (main env).finalCA) := by
  constructor
  · intro o pre post heq
    rcases main_shape env with ⟨pre0, hpre0, hev, _⟩ | ⟨hall, _⟩
    · rw [hev] at heq
      exact (append_mid_decomp Event.isWait pre0
        (Event.waitEv (waitRun (env.timeoutArg : ℚ) env.epsD env.arrival).1)
        [Event.deleteCall env.provName] pre post (Event.waitEv o)
        hpre0 rfl (by intro a ha; rw [List.mem_singleton.mp ha]; rfl) rfl heq).2.2
    · exfalso
      have hin : Event.waitEv o ∈ (main env).events := by
        rw [heq]
        exact List.mem_append_right _ (List.mem_cons_self _ _)
      exact Bool.noConfusion (hall _ hin)
  · intro hz
    cases h1 : env.fileExists (resolvedPub env) with
    | false =>
      rw [main_pubMissing env h1] at hz
      simp at hz
    | true =>
      by_cases h2 : env.listExit = 0
      · cases h3 : substrB env.provName (listingOutput env.ca0) with
        | true =>
          by_cases h4 : env.delete1Exit = 0
          · have hme := main_eq_runAdd_exists env h1 h2 h3 h4
            by_cases h5 : env.gpgExit = 0
            · by_cases h6 : env.addExit = 0
              · rw [runAdd_ok env _ _ _ h5 h6] at hme
                by_cases h7 : env.delete2Exit = 0
                · rw [runWaitDelete_ok env _ _ _ _ _ h7] at hme
                  rw [hme]
                  show env.provName
                    ∉ ((env.ca0.erase env.provName) ++ [env.provName]).erase env.provName
                  have hnm : env.provName ∉ env.ca0.erase env.provName := by
                    intro hc
                    exact ((hnd.mem_erase_iff).mp hc).1 rfl
                  rw [List.erase_append_right _ hnm, List.erase_cons_head]
                  simpa using hnm
                · rw [runWaitDelete_fail env _ _ _ _ _ h7] at hme
                  rw [hme] at hz
                  simp at hz
              · rw [runAdd_addFail env _ _ _ h5 h6] at hme
                rw [hme] at hz
                simp at hz
            · rw [runAdd_gpgFail env _ _ _ h5] at hme
              rw [hme] at hz
              simp at hz
          · rw [main_delete1Fail env h1 h2 h3 h4] at hz
            simp at hz
        | false =>
          have hme := main_eq_runAdd_absent env h1 h2 h3
          have hnm : env.provName ∉ env.ca0 := by
            intro hc
            rw [mem_substrB_listing env.ca0 env.provName hc] at h3
            exact Bool.noConfusion h3
          by_cases h5 : env.gpgExit = 0
          · by_cases h6 : env.addExit = 0
            · rw [runAdd_ok env _ _ _ h5 h6] at hme
              by_cases h7 : env.delete2Exit = 0
              · rw [runWaitDelete_ok env _ _ _ _ _ h7] at hme
                rw [hme]
                show env.provName ∉ (env.ca0 ++ [env.provName]).erase env.provName
                rw [List.erase_append_right _ hnm, List.erase_cons_head]
                simpa using hnm
              · rw [runWaitDelete_fail env _ _ _ _ _ h7] at hme
                rw [hme] at hz
                simp at hz
            · rw [runAdd_addFail env _ _ _ h5 h6] at hme
              rw [hme] at hz
              simp at hz
          · rw [runAdd_gpgFail env _ _ _ h5] at hme
            rw [hme] at hz
            simp at hz
      · rw [main_queryFail env h1 h2] at hz
        simp at hz

theorem c4_witness :
    baseEnv.ca0.Nodup ∧ (main baseEnv).exitCode = 0 ∧
    baseEnv.provName ∉ (main baseEnv).finalCA :=
  ⟨by decide, by decide,
   (c4_final_delete_unconditional baseEnv (by decide)).2 (by decide)⟩

/-- Claim C5: when the configured name is already in the CA namespace at
the start, any add call in the trace comes strictly after the delete call
for that name, the delete completed with exit status 0 (otherwise the run
dies before the add), and the namespace the add was issued against no
longer contains the name. -/
theorem c5_delete_completes_before_add (env : Env) (hmem : env.provName ∈ env.ca0)
    (hnd : env.ca0.Nodup) (pre post : List Event) (pb pv : String)
    (heq : (main env).events = pre ++ Event.addCall env.provName pb pv :: post) :
    Event.deleteCall env.provName ∈ pre ∧ env.delete1Exit = 0 ∧
    (main env).caAtAdd = some (env.ca0.erase env.provName) ∧
    env.provName ∉ env.ca0.erase env.provName := by
  have h3 : substrB env.provName (listingOutput env.ca0) = true :=
    mem_substrB_listing env.ca0 env.provName hmem
  have hnm : env.provName ∉ env.ca0.erase env.provName := by
    intro hc
    exact ((hnd.mem_erase_iff).mp hc).1 rfl
  have hin : Event.addCall env.provName pb pv ∈ (main env).events := by
    rw [heq]
    exact List.mem_append_right _ (List.mem_cons_self _ _)
  cases h1 : env.fileExists (resolvedPub env) with
  | false =>
    rw [main_pubMissing env h1] at hin
    simp at hin
  | true =>
    by_cases h2 : env.listExit = 0
    · by_cases h4 : env.delete1Exit = 0
      · have hme := main_eq_runAdd_exists env h1 h2 h3 h4
        by_cases h5 : env.gpgExit = 0
        · by_cases h6 : env.addExit = 0
          · rw [runAdd_ok env _ _ _ h5 h6] at hme
            rw [hme, runWaitDelete_events] at heq
            obtain ⟨g1, g2, g3⟩ := append_mid_decomp Event.isAdd
              [Event.checkPub (resolvedPub env), Event.listCall,
               Event.deleteCall env.provName, Event.gpgCall env.argsPriv]
              (Event.addCall env.provName env.argsPub tempName)
              [Event.waitEv (waitRun (env.timeoutArg : ℚ) env.epsD env.arrival).1,
               Event.deleteCall env.provName]
              pre post (Event.addCall env.provName pb pv)
              (by intro a ha
                  rcases List.mem_cons.mp ha with h | h
                  · rw [h]; rfl
                  · rcases List.mem_cons.mp h with h | h
                    · rw [h]; rfl
                    · rcases List.mem_cons.mp h with h | h
                      · rw [h]; rfl
                      · rw [List.mem_singleton.mp h]; rfl)
              rfl
              (by intro a ha
                  rcases List.mem_cons.mp ha with h | h
                  · rw [h]; rfl
                  · rw [List.mem_singleton.mp h]; rfl)
              rfl heq
            refine ⟨?_, h4, ?_, hnm⟩
            · rw [g1]
              simp
            · rw [hme, runWaitDelete_caAtAdd]
          · rw [runAdd_addFail env _ _ _ h5 h6] at hme
            rw [hme] at heq
            obtain ⟨g1, g2, g3⟩ := append_mid_decomp Event.isAdd
              [Event.checkPub (resolvedPub env), Event.listCall,
               Event.deleteCall env.provName, Event.gpgCall env.argsPriv]
              (Event.addCall env.provName env.argsPub tempName)
              []
              pre post (Event.addCall env.provName pb pv)
              (by intro a ha
                  rcases List.mem_cons.mp ha with h | h
                  · rw [h]; rfl
                  · rcases List.mem_cons.mp h with h | h
                    · rw [h]; rfl
                    · rcases List.mem_cons.mp h with h | h
                      · rw [h]; rfl
                      · rw [List.mem_singleton.mp h]; rfl)
              rfl
              (by intro a ha; cases ha)
              rfl heq
            refine ⟨?_, h4, ?_, hnm⟩
            · rw [g1]
              simp
            · rw [hme]
        · rw [runAdd_gpgFail env _ _ _ h5] at hme
          rw [hme] at hin
          simp at hin
      · rw [main_delete1Fail env h1 h2 h3 h4] at hin
        simp at hin
    · rw [main_queryFail env h1 h2] at hin
      simp at hin

set_option maxRecDepth 8192 in
theorem c5_witness :
    Event.deleteCall baseEnv.provName ∈ [Event.checkPub "/opt/tempjwk/key.pub",
      Event.listCall, Event.deleteCall "tempjwk", Event.gpgCall "key.priv.gpg"] ∧
    baseEnv.delete1Exit = 0 ∧
    (main baseEnv).caAtAdd = some (baseEnv.ca0.erase baseEnv.provName) ∧
    baseEnv.provName ∉ baseEnv.ca0.erase baseEnv.provName := by
  have hw : waitRun ((baseEnv.timeoutArg : ℤ) : ℚ) baseEnv.epsD baseEnv.arrival
      = (WaitOutcome.timedOut, eps baseEnv.epsD, 0) :=
    waitRun_nonpos _ (by norm_num [baseEnv]) baseEnv.epsD baseEnv.arrival
  have heq : (main baseEnv).events = [Event.checkPub "/opt/tempjwk/key.pub",
      Event.listCall, Event.deleteCall "tempjwk", Event.gpgCall "key.priv.gpg"]
      ++ Event.addCall baseEnv.provName "key.pub" tempName
        :: [Event.waitEv WaitOutcome.timedOut, Event.deleteCall "tempjwk"] := by
    have h := main_eq_runAdd_exists baseEnv rfl rfl (by decide) rfl
    rw [runAdd_ok baseEnv _ _ _ rfl rfl, runWaitDelete_ok baseEnv _ _ _ _ _ rfl] at h
    rw [h, hw]
    decide
  exact c5_delete_completes_before_add baseEnv (by decide) (by decide) _ _ "key.pub"
    tempName heq

end Tempjwk
